import Mathlib

/-!
Shallow embedding of the MIRA orchestration core (backend/app.py,
backend/agents/intent_classifier.py, backend/agents/task_router.py,
backend/extractors/youtube_extractor.py).

Modelling conventions:
* Python strings are Lean `String` (lists of unicode codepoints); slicing,
  `len`, `strip`, `lower`, `split` are embedded by codepoint-level helpers
  restricted to ASCII whitespace/case, which covers every string the
  program manipulates in the claims.
* External collaborators (the hosted LLM transport, the task backends
  `summarize_text`/`analyze_sentiment`/`explain_code`/`answer_question`,
  and the extraction backends) are inputs to the embedded functions:
  a Python call that can raise is an `Except`/sum-typed input.
* Python dicts with a fixed key set are structures; a key that is present
  on some code paths and absent on others is an `Option` field
  (`none` = key absent).
* The human-readable `logs` list is presentation only (spec: "not part of
  the control contract") and is omitted from the embedded response bodies.
-/

/-- ASCII whitespace exactly as Python `str.isspace`/`strip`/`split` treat it. -/
def pyIsSpace (c : Char) : Bool :=
  c == ' ' || c == '\t' || c == '\n' || c == '\r' || c == '\x0b' || c == '\x0c'

/-- Leading/trailing-whitespace removal on a codepoint list (Python `str.strip()`). -/
def stripList (l : List Char) : List Char :=
  ((l.dropWhile pyIsSpace).reverse.dropWhile pyIsSpace).reverse

/-- Python `s.strip()`. -/
def pyStrip (s : String) : String :=
  String.mk (stripList s.data)

/-- Python `s[:n] + "..." if len(s) > n else s`, the preview/truncation idiom of app.py. -/
def preview (n : Nat) (s : String) : String :=
  if n < s.length then String.mk (s.data.take n) ++ "..." else s

/-- Python `s[:n]` (used for the 800-char prompt truncation). -/
def pyTake (n : Nat) (s : String) : String :=
  String.mk (s.data.take n)

/-- Python `s.lower()` (ASCII case). -/
def pyLower (s : String) : String :=
  String.mk (s.data.map Char.toLower)

/-- Python `s.split()`: split on whitespace runs, dropping empty pieces. -/
def splitWS : List Char → List (List Char)
  | [] => []
  | c :: r =>
    if pyIsSpace c then splitWS r
    else (c :: r.takeWhile (fun d => !pyIsSpace d)) :: splitWS (r.dropWhile (fun d => !pyIsSpace d))
termination_by l => l.length
decreasing_by
  · simp only [List.length_cons]; omega
  · simp only [List.length_cons]
    exact Nat.lt_succ_of_le (List.dropWhile_suffix _).length_le

/-- Result dict of IntentClassifier.classify (backend/agents/intent_classifier.py). -/
structure ClassificationResult where
  intent : String
  confidence : ℚ
  needs_clarification : Bool
  clarification_question : Option String
  reasoning : String
  success : Bool
deriving DecidableEq

/-- Value found under "confidence" in the model's JSON: either convertible by
Python `float()` or a value on which `float()` raises (caught by the broad
`except`, yielding the fallback). -/
inductive ConfVal
  | convertible (q : ℚ)
  | unconvertible
deriving DecidableEq

/-- Parsed JSON object returned by the LLM for classification; each field is
`none` when the key is absent (then `dict.get` supplies the default). -/
structure IntentJson where
  intent : Option String := none
  confidence : Option ConfVal := none
  needs_clarification : Option Bool := none
  clarification_question : Option String := none
  reasoning : Option String := none
deriving DecidableEq

/-- Outcome of the `call_llm` + `json.loads` pair inside classify:
`llmError` models a raised LLMClientError, `jsonError` a JSONDecodeError,
`parsed` a successfully decoded JSON object. -/
inductive OracleResult
  | llmError
  | jsonError
  | parsed (j : IntentJson)

/-- Canned clarification question of IntentClassifier._get_fallback_intent. -/
def fallback_question : String :=
  "I couldn\x27t determine what you\x27d like me to do. Could you please specify? For example: \x27summarize this\x27, \x27analyze sentiment\x27, \x27explain this code\x27, or ask a specific question."

/-- IntentClassifier._get_fallback_intent. -/
def get_fallback_intent : ClassificationResult :=
  { intent := "unknown"
    confidence := 0
    needs_clarification := true
    clarification_question := some fallback_question
    reasoning := "Classification service unavailable - requesting user clarification"
    success := false }

/-- Assembly of the result dict of classify from decoded JSON: each `dict.get`
with its default, `float()` on the confidence value (raising on an
unconvertible value, caught by the broad `except` → fallback). -/
def classify_parsed (j : IntentJson) : ClassificationResult :=
  match j.confidence.getD (.convertible 0) with
  | .unconvertible => get_fallback_intent
  | .convertible q =>
    { intent := j.intent.getD "unknown"
      confidence := q
      needs_clarification := j.needs_clarification.getD false
      clarification_question := j.clarification_question
      reasoning := j.reasoning.getD "No reasoning provided"
      success := true }

/-- IntentClassifier.classify: builds the prompt from the first 800 chars of
the extracted text, calls the LLM (here: the `oracle` input), parses JSON and
assembles the result dict; every raised exception inside the `try` is caught
by the broad `except` and replaced by the fallback record. -/
def classify (oracle : String → Option String → OracleResult)
    (extracted_text : String) (user_query : Option String) : ClassificationResult :=
  match oracle (pyTake 800 extracted_text) user_query with
  | .llmError => get_fallback_intent
  | .jsonError => get_fallback_intent
  | .parsed j => classify_parsed j

/-- Result dict of an external task backend (summarize_text, analyze_sentiment,
explain_code, answer_question): the handlers only read its "success" key
(`d.get("success", False)`); remaining keys are carried opaquely. -/
structure ExtDict where
  success : Bool
  fields : List (String × String) := []
deriving DecidableEq

/-- The four external task backends imported by TaskRouter; each call either
returns a dict or raises (modelled by `Except`, the error carrying `str(e)`). -/
structure Backends where
  summarize_text : String → Except String ExtDict
  analyze_sentiment : String → Except String ExtDict
  explain_code : String → Except String ExtDict
  answer_question : String → String → Except String ExtDict

/-- Handler-specific payload keys of the dict a task handler returns. -/
inductive TaskPayload
  | textExtraction (extracted_text : String) (character_count word_count : Nat)
  | youtube (transcript note : String)
  | summarization (summary : ExtDict)
  | sentiment (sentiment : ExtDict)
  | code (analysis : ExtDict)
  | qa (response : ExtDict)
  | unknownP (content_preview : String)
  | nonePayload
deriving DecidableEq

/-- Dict returned by TaskRouter.execute; `none` marks an absent key. -/
structure TaskResult where
  task_type : Option String := none
  result_type : Option String := none
  success : Bool
  error : Option String := none
  message : Option String := none
  payload : TaskPayload := .nonePayload
deriving DecidableEq

/-- TaskRouter._handle_text_extraction. -/
def handle_text_extraction (content : String) (_user_query : Option String) : TaskResult :=
  { result_type := some "text_extraction"
    success := true
    payload := .textExtraction content content.length (splitWS content.data).length }

/-- TaskRouter._handle_youtube. -/
def handle_youtube (content : String) (_user_query : Option String) : TaskResult :=
  { result_type := some "youtube_transcript"
    success := true
    payload := .youtube content "YouTube transcript has been extracted" }

/-- TaskRouter._handle_summarization (raises iff summarize_text raises). -/
def handle_summarization (bk : Backends) (content : String) (_user_query : Option String) :
    Except String TaskResult :=
  (bk.summarize_text content).map fun d =>
    { result_type := some "summarization", success := d.success, payload := .summarization d }

/-- TaskRouter._handle_sentiment. -/
def handle_sentiment (bk : Backends) (content : String) (_user_query : Option String) :
    Except String TaskResult :=
  (bk.analyze_sentiment content).map fun d =>
    { result_type := some "sentiment_analysis", success := d.success, payload := .sentiment d }

/-- TaskRouter._handle_code. -/
def handle_code (bk : Backends) (content : String) (_user_query : Option String) :
    Except String TaskResult :=
  (bk.explain_code content).map fun d =>
    { result_type := some "code_explanation", success := d.success, payload := .code d }

/-- TaskRouter._handle_qa: substitutes a generic question when the user query
is absent or empty (Python truthiness of `if user_query:`). -/
def handle_qa (bk : Backends) (content : String) (user_query : Option String) :
    Except String TaskResult :=
  let q := match user_query with
    | some s => if s = "" then "Can you help me understand this content?" else s
    | none => "Can you help me understand this content?"
  (bk.answer_question q content).map fun d =>
    { result_type := some "qa", success := d.success, payload := .qa d }

/-- TaskRouter._handle_unknown. -/
def handle_unknown (content : String) (_user_query : Option String) : TaskResult :=
  { result_type := some "unknown"
    success := false
    message := some "I\x27m not sure what you\x27d like me to do. Please provide more specific instructions."
    payload := .unknownP (preview 200 content) }

/-- Selection and invocation of the handler in TaskRouter.execute:
`self.task_map.get(intent, self._handle_unknown)` followed by the handler
call. An `Except.error` is a raised exception crossing the handler boundary. -/
def runHandler (bk : Backends) (intent content : String) (user_query : Option String) :
    Except String TaskResult :=
  if intent = "text_extraction" then .ok (handle_text_extraction content user_query)
  else if intent = "youtube_transcript" then .ok (handle_youtube content user_query)
  else if intent = "summarization" then handle_summarization bk content user_query
  else if intent = "sentiment_analysis" then handle_sentiment bk content user_query
  else if intent = "code_explanation" then handle_code bk content user_query
  else if intent = "qa" then handle_qa bk content user_query
  else .ok (handle_unknown content user_query)

/-- The keys of TaskRouter.task_map. -/
def routedIntents : List String :=
  ["text_extraction", "youtube_transcript", "summarization",
   "sentiment_analysis", "code_explanation", "qa", "unknown"]

/-- TaskRouter.execute: run the selected handler, stamp `task_type` with the
requested intent, and convert a raised exception into the failure dict. -/
def execute (bk : Backends) (intent content : String) (user_query : Option String) : TaskResult :=
  match runHandler bk intent content user_query with
  | .ok r => { r with task_type := some intent }
  | .error e =>
    { task_type := some intent
      success := false
      error := some e
      message := some ("Failed to execute " ++ intent ++ " task") }

/-!
Embedding of backend/extractors/youtube_extractor.py. The two functions use
`re.search` with the IGNORECASE pattern
`(https?://)?(www\.)?(youtube.com/watch?v=|youtu.be/|youtube.com/embed/)TAIL`
where TAIL is one-or-more of `[^\s]` (is_youtube_url) resp. `[^\s&]`
(extract_youtube_url, as capture group 4). All pattern pieces are literals,
so the backtracking search is embedded directly: `matchLitCI` matches one
literal case-insensitively, the optional groups and the alternation are
ordered `Option` alternatives (mirroring the engine's greedy/left-first
order), and `searchYT` scans start positions left to right as `re.search`
does. Matches keep the original (non-lowercased) characters because
Python's subsequent `in`/`startswith` checks on `match.group(0)` are
case-sensitive.
-/

/-- Case-insensitive character comparison (ASCII, as in `re.IGNORECASE`). -/
def ciEq (a b : Char) : Bool := a.toLower == b.toLower

/-- Match the literal `lit` case-insensitively at the head of `s`; returns the
matched original characters and the remainder. -/
def matchLitCI : List Char → List Char → Option (List Char × List Char)
  | [], s => some ([], s)
  | _ :: _, [] => none
  | l :: ls, c :: cs =>
    if ciEq l c then (matchLitCI ls cs).map (fun p => (c :: p.1, p.2)) else none

/-- The literal `youtube.com/watch?v=` of the pattern's alternation. -/
def watchLit : List Char :=
  ['y', 'o', 'u', 't', 'u', 'b', 'e', '.', 'c', 'o', 'm', '/', 'w', 'a', 't', 'c', 'h', '?', 'v', '=']

/-- The literal `youtu.be/` of the pattern's alternation. -/
def beLit : List Char := ['y', 'o', 'u', 't', 'u', '.', 'b', 'e', '/']

/-- The literal `youtube.com/embed/` of the pattern's alternation. -/
def embedLit : List Char :=
  ['y', 'o', 'u', 't', 'u', 'b', 'e', '.', 'c', 'o', 'm', '/', 'e', 'm', 'b', 'e', 'd', '/']

/-- The literal `https://`. -/
def httpsLit : List Char := ['h', 't', 't', 'p', 's', ':', '/', '/']

/-- The literal `http://`. -/
def httpLit : List Char := ['h', 't', 't', 'p', ':', '/', '/']

/-- The literal `www.`. -/
def wwwLit : List Char := ['w', 'w', 'w', '.']

/-- Match the alternation `(youtube.com/watch?v=|youtu.be/|youtube.com/embed/)`,
alternatives tried left to right. -/
def matchCore (s : List Char) : Option (List Char × List Char) :=
  matchLitCI watchLit s <|> matchLitCI beLit s <|> matchLitCI embedLit s

/-- Match `(www\.)?` followed by the alternation (greedy option, with
backtracking into the no-`www.` branch). -/
def matchWWW (s : List Char) : Option (List Char × List Char) :=
  ((matchLitCI wwwLit s).bind fun p =>
    (matchCore p.2).map fun q => (p.1 ++ q.1, q.2))
  <|> matchCore s

/-- Match `(https?://)?(www\.)?(alternation)`: `https://` preferred over
`http://` (greedy `s?`) preferred over no scheme, each with backtracking. -/
def matchScheme (s : List Char) : Option (List Char × List Char) :=
  ((matchLitCI httpsLit s).bind fun p =>
    (matchWWW p.2).map fun q => (p.1 ++ q.1, q.2))
  <|> ((matchLitCI httpLit s).bind fun p =>
    (matchWWW p.2).map fun q => (p.1 ++ q.1, q.2))
  <|> matchWWW s

/-- Greedy `PRED+`: the maximal nonempty run of characters satisfying `pred`. -/
def matchTail (pred : Char → Bool) (s : List Char) : Option (List Char × List Char) :=
  if s.takeWhile pred = [] then none else some (s.takeWhile pred, s.dropWhile pred)

/-- Attempt the whole pattern at the start of `s`; on success returns
(group 0, group 4), i.e. the full original match and the tail run. -/
def matchAt (pred : Char → Bool) (s : List Char) : Option (List Char × List Char) :=
  (matchScheme s).bind fun p =>
    (matchTail pred p.2).map fun q => (p.1 ++ q.1, q.1)

/-- `re.search`: try the pattern at each start position, leftmost match wins. -/
def searchYT (pred : Char → Bool) : List Char → Option (List Char × List Char)
  | [] => none
  | c :: rest => matchAt pred (c :: rest) <|> searchYT pred rest

/-- Characters allowed in the `[^\s]+` tail of the is_youtube_url pattern. -/
def nonSpace (c : Char) : Bool := !pyIsSpace c

/-- Characters allowed in the `([^\s&]+)` tail of the extract_youtube_url pattern. -/
def nonSpaceAmp (c : Char) : Bool := !pyIsSpace c && c != '&'

/-- Does `s` start with `pat` (case-sensitive, Python `str.startswith`)? -/
def listStarts : List Char → List Char → Bool
  | [], _ => true
  | _ :: _, [] => false
  | p :: ps, c :: cs => p == c && listStarts ps cs

/-- Does `s` contain `pat` as a contiguous substring (Python `in`, case-sensitive)? -/
def listHasSub (pat : List Char) : List Char → Bool
  | [] => pat.isEmpty
  | c :: rest => listStarts pat (c :: rest) || listHasSub pat rest

/-- is_youtube_url (youtube_extractor.py): does `re.search` find the pattern? -/
def is_youtube_url (text : String) : Bool :=
  (searchYT nonSpace text.data).isSome

/-- extract_youtube_url (youtube_extractor.py): search the capture-group
pattern, then reconstruct the full URL; a `youtu.be` match is normalized to
the canonical `https://www.youtube.com/watch?v=` form via group 4. -/
def extract_youtube_url (text : String) : String :=
  match searchYT nonSpaceAmp text.data with
  | none => ""
  | some (g0, g4) =>
    if listHasSub ['y', 'o', 'u', 't', 'u', '.', 'b', 'e'] g0 then
      "https://www.youtube.com/watch?v=" ++ String.mk g4
    else if listStarts ['h', 't', 't', 'p'] g0 then
      String.mk g0
    else
      "https://" ++ String.mk g0

/-- Does `s` start with the literal `lit`, case-insensitively? -/
def ciStarts : List Char → List Char → Bool
  | [], _ => true
  | _ :: _, [] => false
  | l :: ls, c :: cs => ciEq l c && ciStarts ls cs

/-- Elementwise case-insensitive match of a literal against a list of the
same length. -/
def ciMatch : List Char → List Char → Bool
  | [], [] => true
  | l :: ls, c :: cs => ciEq l c && ciMatch ls cs
  | _, _ => false

/-- Does one of the three core literals of the YouTube pattern
(`youtube.com/watch?v=`, `youtu.be/`, `youtube.com/embed/`) occur
case-insensitively anywhere in the list? -/
def hasCoreCI : List Char → Bool
  | [] => false
  | c :: rest =>
    ciStarts watchLit (c :: rest) || ciStarts beLit (c :: rest) ||
    ciStarts embedLit (c :: rest) || hasCoreCI rest

/-- The six ASCII whitespace characters of `[^\s]`. -/
def wsChars : List Char := [' ', '\t', '\n', '\r', '\x0b', '\x0c']

/-!
Embedding of the orchestrator endpoints in backend/app.py. Extraction
backends are external; their result dicts for the current request are inputs
(`Extractors`). The classifier is passed as the total function
`clf : String → Option String → ClassificationResult` (the totality of
IntentClassifier.classify is proved separately); the task backends as
`Backends`. `conversation_contexts` is an association list with dict
lookup/assignment/deletion semantics. A raised `HTTPException status detail`
is the `httpError` response arm (FastAPI turns it into an error reply; the
endpoint's own `except HTTPException: raise` re-raises it); the
`JSONResponse({"status": "error", ...})` bodies are the `errorJson` arm.
-/

/-- Extraction metadata dict built by process_input (one shape per input kind). -/
inductive ExtractionMeta
  | image (method : String) (confidence : ℚ)
  | pdf (method : String) (pages : Nat)
  | audio (language : String) (duration : ℚ)
  | youtube (title : String) (duration : ℚ)
  | text
deriving DecidableEq

/-- Per-session record stored in conversation_contexts. -/
structure SessionContext where
  extracted_content : String
  extraction_metadata : ExtractionMeta
deriving DecidableEq

/-- The conversation_contexts dict (session id → SessionContext). -/
abbrev Ctxs : Type := List (String × SessionContext)

/-- Dict lookup `conversation_contexts.get(session_id)`. -/
def ctxGet (m : Ctxs) (k : String) : Option SessionContext :=
  (List.find? (fun p => p.1 == k) m).map (fun p => p.2)

/-- Dict deletion `del conversation_contexts[session_id]`. -/
def ctxDel (m : Ctxs) (k : String) : Ctxs :=
  List.filter (fun p => p.1 != k) m

/-- Dict assignment `conversation_contexts[session_id] = ctx` (overwrites). -/
def ctxSet (m : Ctxs) (k : String) (v : SessionContext) : Ctxs :=
  (k, v) :: ctxDel m k

/-- Result dict of extract_from_image for the current request. -/
structure ImgResult where
  text : String
  confidence : ℚ
  method : String
  success : Bool
  error : Option String := none

/-- Result dict of extract_from_pdf for the current request. -/
structure PdfResult where
  text : String
  pages : Nat
  method : String
  success : Bool
  error : Option String := none

/-- Result dict of extract_from_audio for the current request. -/
structure AudioResult where
  text : String
  language : String
  duration : ℚ
  success : Bool
  error : Option String := none

/-- Result dict of extract_youtube_transcript (a function of the url passed). -/
structure YtResult where
  text : String
  title : String
  duration : ℚ
  success : Bool
  error : Option String := none

/-- The extraction collaborators consulted by process_input. -/
structure Extractors where
  image : ImgResult
  pdf : PdfResult
  audio : AudioResult
  youtube : String → YtResult

/-- The uploaded file of a submit request (content is consumed by the
extraction backends, which are inputs here, so only the name matters). -/
structure FileIn where
  filename : String
deriving DecidableEq

/-- Does the lowercased filename end with one of the given suffixes? -/
def endsWithAny (name : String) (sufs : List String) : Bool :=
  sufs.any (fun suf => List.isSuffixOf suf.data name.data)

/-- Body of a needs_clarification JSONResponse; `none` marks an absent key
(the clarify endpoint omits several keys that the submit endpoint includes). -/
structure NeedsClarBody where
  extracted_content : Option String
  extraction_metadata : Option ExtractionMeta
  question : Option String
  reasoning : Option String
  session_id : Option String
deriving DecidableEq

/-- Body of a success JSONResponse; `intent_reasoning` is `none` when the
"reasoning" key is absent from the "intent" object (clarify endpoint). -/
structure SuccessBody where
  extracted_content : String
  extraction_metadata : ExtractionMeta
  intent_type : String
  intent_confidence : ℚ
  intent_reasoning : Option String
  result : TaskResult
deriving DecidableEq

/-- Response of an endpoint: a raised HTTPException, a status="error"
JSONResponse, a status="needs_clarification" JSONResponse, or a
status="success" JSONResponse. -/
inductive ApiResponse
  | httpError (code : Nat) (detail : String)
  | errorJson (message : String)
  | needsClarification (body : NeedsClarBody)
  | success (body : SuccessBody)
deriving DecidableEq

/-- STEP 1 of process_input: content extraction. `Except.error (code, detail)`
is a raised HTTPException; `Except.ok` carries (extracted_content,
extraction_metadata). Mirrors the `if file: ... elif text: ... else:` chain,
including Python truthiness of `text` (empty string falls to "No input"). -/
def extractPhase (ext : Extractors) (text : Option String) (file : Option FileIn) :
    Except (Nat × String) (String × ExtractionMeta) :=
  match file with
  | some f =>
    let filename := pyLower f.filename
    if endsWithAny filename [".png", ".jpg", ".jpeg", ".bmp", ".gif"] then
      if ext.image.success then
        .ok (ext.image.text, .image ext.image.method ext.image.confidence)
      else .error (400, "Image extraction failed")
    else if endsWithAny filename [".pdf"] then
      if ext.pdf.success then
        .ok (ext.pdf.text, .pdf ext.pdf.method ext.pdf.pages)
      else .error (400, "PDF extraction failed")
    else if endsWithAny filename [".mp3", ".wav", ".m4a", ".ogg", ".flac"] then
      if ext.audio.success then
        .ok (ext.audio.text, .audio ext.audio.language ext.audio.duration)
      else .error (400, "Audio transcription failed")
    else .error (400, "Unsupported file type: " ++ filename)
  | none =>
    match text with
    | some t =>
      if t = "" then .error (400, "No input provided (text or file required)")
      else if is_youtube_url t then
        let r := ext.youtube (extract_youtube_url t)
        if r.success then .ok (r.text, .youtube r.title r.duration)
        else .ok (t, .text)
      else .ok (t, .text)
    | none => .error (400, "No input provided (text or file required)")

/-- STEPS 2-5 of process_input: classification, the clarification decision
(persisting the SessionContext), task dispatch, response assembly. -/
def classifyPhase (clf : String → Option String → ClassificationResult) (bk : Backends)
    (extracted_content : String) (extraction_metadata : ExtractionMeta)
    (text : Option String) (session_id : String) (ctxs : Ctxs) : ApiResponse × Ctxs :=
  let intent_result := clf extracted_content text
  if intent_result.needs_clarification then
    (.needsClarification
      { extracted_content := some (preview 500 extracted_content)
        extraction_metadata := some extraction_metadata
        question := intent_result.clarification_question
        reasoning := some intent_result.reasoning
        session_id := some session_id },
     ctxSet ctxs session_id ⟨extracted_content, extraction_metadata⟩)
  else
    let final_result := execute bk intent_result.intent extracted_content text
    (.success
      { extracted_content := preview 1000 extracted_content
        extraction_metadata := extraction_metadata
        intent_type := intent_result.intent
        intent_confidence := intent_result.confidence
        intent_reasoning := some intent_result.reasoning
        result := final_result },
     ctxs)

/-- The /process endpoint (process_input in app.py): extraction, the
minimum-content check, then classification and dispatch. -/
def process_input (clf : String → Option String → ClassificationResult) (bk : Backends)
    (ext : Extractors) (text : Option String) (file : Option FileIn)
    (session_id : String) (ctxs : Ctxs) : ApiResponse × Ctxs :=
  match extractPhase ext text file with
  | .error (code, detail) => (.httpError code detail, ctxs)
  | .ok (extracted_content, extraction_metadata) =>
    if extracted_content = "" ∨ (pyStrip extracted_content).length < 5 then
      (.errorJson "Could not extract meaningful content from input", ctxs)
    else
      classifyPhase clf bk extracted_content extraction_metadata text session_id ctxs

/-- The /clarify endpoint (clarify_intent in app.py): look up the stored
context, re-classify with the clarification as the utterance, and either ask
again (context kept) or dispatch and delete the context. -/
def clarify_intent (clf : String → Option String → ClassificationResult) (bk : Backends)
    (clarification : String) (session_id : String) (ctxs : Ctxs) : ApiResponse × Ctxs :=
  match ctxGet ctxs session_id with
  | none =>
    (.httpError 400 "Session expired or invalid. Please resubmit your input.", ctxs)
  | some context =>
    let intent_result := clf context.extracted_content (some clarification)
    if intent_result.needs_clarification then
      (.needsClarification
        { extracted_content := none
          extraction_metadata := none
          question := intent_result.clarification_question
          reasoning := none
          session_id := none },
       ctxs)
    else
      let final_result :=
        execute bk intent_result.intent context.extracted_content (some clarification)
      (.success
        { extracted_content := preview 1000 context.extracted_content
          extraction_metadata := context.extraction_metadata
          intent_type := intent_result.intent
          intent_confidence := intent_result.confidence
          intent_reasoning := none
          result := final_result },
       ctxDel ctxs session_id)

/-- An external-backend dict reporting success (for concrete scenarios). -/
def okDict : ExtDict := { success := true }

/-- Task backends that all answer successfully (concrete scenario input). -/
def bk0 : Backends :=
  { summarize_text := fun _ => .ok okDict
    analyze_sentiment := fun _ => .ok okDict
    explain_code := fun _ => .ok okDict
    answer_question := fun _ _ => .ok okDict }

/-- Task backends whose summarizer raises (concrete scenario input). -/
def bkRaise : Backends :=
  { bk0 with summarize_text := fun _ => .error "division by zero" }

/-- Extraction collaborators for text-only scenarios (file backends unused). -/
def ext0 : Extractors :=
  { image := ⟨"", 0, "tesseract_ocr", false, none⟩
    pdf := ⟨"", 0, "pypdf", false, none⟩
    audio := ⟨"", "en", 0, false, none⟩
    youtube := fun _ => ⟨"", "", 0, false, none⟩ }

/-- A classifier behavior that always asks for clarification (e.g. the oracle
transport is down, so classify returns its fallback). -/
def clfClar : String → Option String → ClassificationResult :=
  fun _ _ => get_fallback_intent

/-- A deterministic resolved classification (fixed intent, no clarification). -/
def resolvedQa : ClassificationResult :=
  { intent := "qa"
    confidence := 9 / 10
    needs_clarification := false
    clarification_question := none
    reasoning := "user asked a question"
    success := true }

/-- A classifier behavior that deterministically resolves to `resolvedQa`. -/
def clfRes : String → Option String → ClassificationResult :=
  fun _ _ => resolvedQa

/-- Inversion for `Except.map` landing in `ok`. -/
theorem exceptMap_ok {α β ε : Type} {f : α → β} {x : Except ε α} {b : β}
    (h : x.map f = .ok b) : ∃ a, x = .ok a ∧ b = f a := by
  cases x with
  | error e => simp [Except.map] at h
  | ok a =>
    refine ⟨a, rfl, ?_⟩
    simpa [Except.map] using h.symm

/-- C1: IntentClassifier.classify is total (every oracle outcome produces a
well-formed ClassificationResult), and whenever the returned result has
success = false it is exactly the fallback record: intent "unknown",
confidence 0.0, needs_clarification true, and the fixed canned
clarification question (non-null). -/
theorem classify_fallback_on_failure (oracle : String → Option String → OracleResult)
    (extracted_text : String) (user_query : Option String)
    (h : (classify oracle extracted_text user_query).success = false) :
    classify oracle extracted_text user_query = get_fallback_intent ∧
    (classify oracle extracted_text user_query).intent = "unknown" ∧
    (classify oracle extracted_text user_query).confidence = 0 ∧
    (classify oracle extracted_text user_query).needs_clarification = true ∧
    (classify oracle extracted_text user_query).clarification_question =
      some fallback_question := by
  have key : (classify oracle extracted_text user_query).success = true ∨
      classify oracle extracted_text user_query = get_fallback_intent := by
    unfold classify
    cases oracle (pyTake 800 extracted_text) user_query with
    | llmError => exact .inr rfl
    | jsonError => exact .inr rfl
    | parsed j =>
      show (classify_parsed j).success = true ∨ classify_parsed j = get_fallback_intent
      unfold classify_parsed
      cases j.confidence.getD (.convertible 0) with
      | convertible q => exact .inl rfl
      | unconvertible => exact .inr rfl
  rcases key with ht | hc
  · rw [h] at ht
    exact absurd ht (by simp)
  · refine ⟨hc, ?_, ?_, ?_, ?_⟩ <;> rw [hc] <;> rfl

/-- Witness for classify_fallback_on_failure: a transport failure of the LLM
call yields the fallback record. -/
theorem classify_fallback_on_failure_witness :
    (classify (fun _ _ => .llmError) "a sample document" none).success = false ∧
    (classify (fun _ _ => .llmError) "a sample document" none = get_fallback_intent ∧
     (classify (fun _ _ => .llmError) "a sample document" none).intent = "unknown" ∧
     (classify (fun _ _ => .llmError) "a sample document" none).confidence = 0 ∧
     (classify (fun _ _ => .llmError) "a sample document" none).needs_clarification = true ∧
     (classify (fun _ _ => .llmError) "a sample document" none).clarification_question =
       some fallback_question) :=
  ⟨rfl, classify_fallback_on_failure _ "a sample document" none rfl⟩

/-- C5: TaskRouter.execute never lets a handler exception propagate: if the
selected handler raises (runHandler errors), execute returns the dict with
success = false, task_type = the requested intent, the error string, and the
generic failure message. -/
theorem execute_isolates_handler_crash (bk : Backends) (intent content : String)
    (user_query : Option String) (e : String)
    (h : runHandler bk intent content user_query = .error e) :
    execute bk intent content user_query =
      { task_type := some intent
        success := false
        error := some e
        message := some ("Failed to execute " ++ intent ++ " task") } := by
  unfold execute
  rw [h]

/-- Witness for execute_isolates_handler_crash: a summarize backend that
raises is converted into the failure dict. -/
theorem execute_isolates_handler_crash_witness :
    runHandler bkRaise "summarization" "long enough content" none =
      .error "division by zero" ∧
    execute bkRaise "summarization" "long enough content" none =
      { task_type := some "summarization"
        success := false
        error := some "division by zero"
        message := some "Failed to execute summarization task" } := by
  refine ⟨rfl, ?_⟩
  rw [execute_isolates_handler_crash bkRaise "summarization" "long enough content" none
    "division by zero" rfl]
  decide

/-- C6: a clarify call whose session id has no stored SessionContext yields
the terminal session-protocol HTTPException (resubmit from scratch), leaves
the store untouched, and never reaches classification or dispatch (the
response is the same for every classifier and backend behavior). -/
theorem clarify_unknown_session (clf : String → Option String → ClassificationResult)
    (bk : Backends) (clarification session_id : String) (ctxs : Ctxs)
    (h : ctxGet ctxs session_id = none) :
    clarify_intent clf bk clarification session_id ctxs =
      (.httpError 400 "Session expired or invalid. Please resubmit your input.", ctxs) := by
  unfold clarify_intent
  rw [h]

/-- Witness for clarify_unknown_session: an empty store has no context for
session id "default". -/
theorem clarify_unknown_session_witness :
    ctxGet [] "default" = none ∧
    clarify_intent clfClar bk0 "summarize it" "default" [] =
      (.httpError 400 "Session expired or invalid. Please resubmit your input.", []) :=
  ⟨rfl, clarify_unknown_session clfClar bk0 "summarize it" "default" [] rfl⟩

/-- Counterexample to C4 as stated: for the out-of-table intent "translate",
execute stamps task_type with the requested intent but the dict's
result_type is "unknown" (the fallback handler's own label), not the
requested intent. -/
theorem execute_result_type_cex :
    (execute bk0 "translate" "hello world" none).task_type = some "translate" ∧
    (execute bk0 "translate" "hello world" none).result_type = some "unknown" ∧
    ¬(execute bk0 "translate" "hello world" none).result_type = some "translate" := by
  decide

/-- C4 (amended): execute always stamps task_type with the requested intent;
result_type equals the requested intent when the intent is in the routing
table and the selected handler returns normally, equals "unknown" for any
intent outside the table, and is absent when the handler raised. -/
theorem execute_task_and_result_type (bk : Backends) (intent content : String)
    (uq : Option String) :
    (execute bk intent content uq).task_type = some intent ∧
    (∀ r, runHandler bk intent content uq = .ok r → intent ∈ routedIntents →
      (execute bk intent content uq).result_type = some intent) ∧
    (intent ∉ routedIntents →
      (execute bk intent content uq).result_type = some "unknown") ∧
    (∀ e, runHandler bk intent content uq = .error e →
      (execute bk intent content uq).result_type = none) := by
  refine ⟨?_, ?_, ?_, ?_⟩
  · cases hr : runHandler bk intent content uq <;> simp [execute, hr]
  · intro r hr hmem
    simp only [routedIntents, List.mem_cons, List.mem_singleton, List.not_mem_nil,
      or_false] at hmem
    rcases hmem with h1 | h1 | h1 | h1 | h1 | h1 | h1 <;> subst h1 <;>
      simp only [runHandler, if_pos, if_neg, reduceIte] at hr
    · simp [execute, hr, ← hr.symm]
      cases hr
      rfl
    · cases hr
      simp [execute, runHandler, handle_youtube]
    · rcases exceptMap_ok hr with ⟨d, hd, hbd⟩
      subst hbd
      simp [execute, runHandler, handle_summarization, hd, Except.map]
    · rcases exceptMap_ok hr with ⟨d, hd, hbd⟩
      subst hbd
      simp [execute, runHandler, handle_sentiment, hd, Except.map]
    · rcases exceptMap_ok hr with ⟨d, hd, hbd⟩
      subst hbd
      simp [execute, runHandler, handle_code, hd, Except.map]
    · rcases exceptMap_ok hr with ⟨d, hd, hbd⟩
      subst hbd
      simp [execute, runHandler, handle_qa, hd, Except.map]
    · cases hr
      simp [execute, runHandler, handle_unknown]
  · intro hmem
    simp only [routedIntents, List.mem_cons, List.mem_singleton, List.not_mem_nil,
      or_false, not_or] at hmem
    obtain ⟨n1, n2, n3, n4, n5, n6, n7⟩ := hmem
    simp [execute, runHandler, n1, n2, n3, n4, n5, n6, n7, handle_unknown]
  · intro e hr
    simp [execute, hr]

/-- Witness for execute_task_and_result_type at a routed intent with a
normally-returning handler and at an unrouted intent. -/
theorem execute_task_and_result_type_witness :
    runHandler bk0 "qa" "some document" none =
      .ok { result_type := some "qa", success := true, payload := .qa okDict } ∧
    ("qa" : String) ∈ routedIntents ∧
    (execute bk0 "qa" "some document" none).task_type = some "qa" ∧
    (execute bk0 "qa" "some document" none).result_type = some "qa" := by
  refine ⟨rfl, by decide, ?_, ?_⟩
  · exact (execute_task_and_result_type bk0 "qa" "some document" none).1
  · exact (execute_task_and_result_type bk0 "qa" "some document" none).2.1
      { result_type := some "qa", success := true, payload := .qa okDict } rfl (by decide)

/-- Dict lookup after assignment at the same key. -/
theorem ctxGet_set_self (m : Ctxs) (k : String) (v : SessionContext) :
    ctxGet (ctxSet m k v) k = some v := by
  simp [ctxGet, ctxSet, List.find?]

/-- Dict lookup after deletion at the same key. -/
theorem ctxGet_del_self (m : Ctxs) (k : String) : ctxGet (ctxDel m k) k = none := by
  induction m with
  | nil => rfl
  | cons p m ih =>
    have hstep : ctxDel (p :: m) k =
        if (p.1 != k) = true then p :: ctxDel m k else ctxDel m k := by
      simp [ctxDel, List.filter_cons]
    rw [hstep]
    by_cases h : p.1 = k
    · simp only [h, bne_self_eq_false, Bool.false_eq_true, if_false]
      exact ih
    · rw [if_pos (by simp [h])]
      simp only [ctxGet] at ih ⊢
      rw [List.find?_cons_of_neg]
      · exact ih
      · simp [h]

/-- After deletion, no entry for the key remains. -/
theorem filter_ctxDel_nil (m : Ctxs) (k : String) :
    List.filter (fun p => p.1 == k) (ctxDel m k) = [] := by
  induction m with
  | nil => rfl
  | cons p m ih =>
    by_cases h : p.1 = k
    · simp [ctxDel, List.filter_cons, h]
    · simp [ctxDel, List.filter_cons, h]

/-- After assignment, exactly one entry for the key exists. -/
theorem filter_ctxSet_one (m : Ctxs) (k : String) (v : SessionContext) :
    (List.filter (fun p => p.1 == k) (ctxSet m k v)).length = 1 := by
  simp [ctxSet, List.filter_cons, filter_ctxDel_nil]

/-- C3: when a clarify round again needs clarification the stored
SessionContext is untouched (so any number of further rounds re-classify
against the same stored content); the context is deleted exactly when
classification resolves and dispatch runs, the success response being built
from the stored content and the resolved intent. -/
theorem clarify_keeps_context_until_resolved
    (clf : String → Option String → ClassificationResult) (bk : Backends)
    (clarification session_id : String) (ctxs : Ctxs) (ctx : SessionContext)
    (h : ctxGet ctxs session_id = some ctx) :
    ((clf ctx.extracted_content (some clarification)).needs_clarification = true →
      clarify_intent clf bk clarification session_id ctxs =
        (.needsClarification
          { extracted_content := none
            extraction_metadata := none
            question := (clf ctx.extracted_content (some clarification)).clarification_question
            reasoning := none
            session_id := none }, ctxs)) ∧
    ((clf ctx.extracted_content (some clarification)).needs_clarification = false →
      (clarify_intent clf bk clarification session_id ctxs).2 = ctxDel ctxs session_id ∧
      ctxGet (clarify_intent clf bk clarification session_id ctxs).2 session_id = none ∧
      (clarify_intent clf bk clarification session_id ctxs).1 = .success
        { extracted_content := preview 1000 ctx.extracted_content
          extraction_metadata := ctx.extraction_metadata
          intent_type := (clf ctx.extracted_content (some clarification)).intent
          intent_confidence := (clf ctx.extracted_content (some clarification)).confidence
          intent_reasoning := none
          result := execute bk (clf ctx.extracted_content (some clarification)).intent
            ctx.extracted_content (some clarification) }) := by
  constructor
  · intro hn
    unfold clarify_intent
    rw [h]
    simp [hn]
  · intro hn
    unfold clarify_intent
    rw [h]
    simp [hn, ctxGet_del_self]

/-- Witness for clarify_keeps_context_until_resolved: a stored context under
"default" with a classifier that asks for clarification again. -/
theorem clarify_keeps_context_until_resolved_witness :
    ctxGet [("default", ⟨"stored content here", ExtractionMeta.text⟩)] "default" =
      some ⟨"stored content here", ExtractionMeta.text⟩ ∧
    (((clfClar ("stored content here" : String) (some "more detail")).needs_clarification = true →
      clarify_intent clfClar bk0 "more detail" "default"
          [("default", ⟨"stored content here", ExtractionMeta.text⟩)] =
        (.needsClarification
          { extracted_content := none
            extraction_metadata := none
            question := (clfClar ("stored content here" : String) (some "more detail")).clarification_question
            reasoning := none
            session_id := none },
         [("default", ⟨"stored content here", ExtractionMeta.text⟩)])) ∧
     ((clfClar ("stored content here" : String) (some "more detail")).needs_clarification = false →
      (clarify_intent clfClar bk0 "more detail" "default"
          [("default", ⟨"stored content here", ExtractionMeta.text⟩)]).2 =
        ctxDel [("default", ⟨"stored content here", ExtractionMeta.text⟩)] "default" ∧
      ctxGet (clarify_intent clfClar bk0 "more detail" "default"
          [("default", ⟨"stored content here", ExtractionMeta.text⟩)]).2 "default" = none ∧
      (clarify_intent clfClar bk0 "more detail" "default"
          [("default", ⟨"stored content here", ExtractionMeta.text⟩)]).1 = .success
        { extracted_content := preview 1000 "stored content here"
          extraction_metadata := ExtractionMeta.text
          intent_type := (clfClar ("stored content here" : String) (some "more detail")).intent
          intent_confidence := (clfClar ("stored content here" : String) (some "more detail")).confidence
          intent_reasoning := none
          result := execute bk0 (clfClar ("stored content here" : String) (some "more detail")).intent
            "stored content here" (some "more detail") })) :=
  ⟨rfl, clarify_keeps_context_until_resolved clfClar bk0 "more detail" "default"
    [("default", ⟨"stored content here", ExtractionMeta.text⟩)]
    ⟨"stored content here", ExtractionMeta.text⟩ rfl⟩

set_option maxRecDepth 10000 in
/-- Counterexample to C8 as stated: at a concrete stored session, the clarify
endpoint's needs_clarification response omits the content preview, the
extraction metadata, the reasoning, and the session id that the submit
endpoint's needs_clarification response carries (only the question is kept). -/
theorem clarify_shape_cex :
    (clarify_intent clfClar bk0 "more" "default"
        [("default", ⟨"some stored content", ExtractionMeta.text⟩)]).1 =
      .needsClarification
        { extracted_content := none
          extraction_metadata := none
          question := some fallback_question
          reasoning := none
          session_id := none } ∧
    (process_input clfClar bk0 ext0 (some "some stored content") none "default" []).1 =
      .needsClarification
        { extracted_content := some "some stored content"
          extraction_metadata := some ExtractionMeta.text
          question := some fallback_question
          reasoning := some "Classification service unavailable - requesting user clarification"
          session_id := some "default" } := by
  constructor
  · rfl
  · decide

/-- C8 (amended): the clarify endpoint has the same three outcome statuses as
submit, but its needs_clarification response carries only the clarification
question: the content preview, extraction metadata, reasoning, and session id
keys of the submit counterpart are absent. -/
theorem clarify_needs_clarification_shape
    (clf : String → Option String → ClassificationResult) (bk : Backends)
    (clarification session_id : String) (ctxs : Ctxs) (b : NeedsClarBody)
    (h : (clarify_intent clf bk clarification session_id ctxs).1 = .needsClarification b) :
    b.extracted_content = none ∧ b.extraction_metadata = none ∧
    b.reasoning = none ∧ b.session_id = none ∧
    ∃ ctx, ctxGet ctxs session_id = some ctx ∧
      b.question = (clf ctx.extracted_content (some clarification)).clarification_question := by
  unfold clarify_intent at h
  cases hg : ctxGet ctxs session_id with
  | none =>
    rw [hg] at h
    simp at h
  | some ctx =>
    rw [hg] at h
    by_cases hn : (clf ctx.extracted_content (some clarification)).needs_clarification = true
    · simp only [hn, if_true] at h
      cases h
      exact ⟨rfl, rfl, rfl, rfl, ctx, rfl, rfl⟩
    · simp only [Bool.not_eq_true] at hn
      simp [hn] at h

/-- Witness for clarify_needs_clarification_shape at a concrete stored
session and the always-clarifying classifier. -/
theorem clarify_needs_clarification_shape_witness :
    (clarify_intent clfClar bk0 "more" "default"
        [("default", ⟨"some stored content", ExtractionMeta.text⟩)]).1 =
      .needsClarification
        { extracted_content := none
          extraction_metadata := none
          question := some fallback_question
          reasoning := none
          session_id := none } ∧
    (({ extracted_content := none
        extraction_metadata := none
        question := some fallback_question
        reasoning := none
        session_id := none } : NeedsClarBody).extracted_content = none ∧
     ({ extracted_content := none
        extraction_metadata := none
        question := some fallback_question
        reasoning := none
        session_id := none } : NeedsClarBody).extraction_metadata = none ∧
     ({ extracted_content := none
        extraction_metadata := none
        question := some fallback_question
        reasoning := none
        session_id := none } : NeedsClarBody).reasoning = none ∧
     ({ extracted_content := none
        extraction_metadata := none
        question := some fallback_question
        reasoning := none
        session_id := none } : NeedsClarBody).session_id = none ∧
     ∃ ctx, ctxGet [("default", ⟨"some stored content", ExtractionMeta.text⟩)] "default" =
        some ctx ∧
       ({ extracted_content := none
          extraction_metadata := none
          question := some fallback_question
          reasoning := none
          session_id := none } : NeedsClarBody).question =
         (clfClar ctx.extracted_content (some "more")).clarification_question) :=
  ⟨rfl, clarify_needs_clarification_shape clfClar bk0 "more" "default"
    [("default", ⟨"some stored content", ExtractionMeta.text⟩)] _ rfl⟩

/-- C2: a submit that ends in needs_clarification stores the SessionContext
under the session id, the stored extraction metadata is the one in the
response, and a subsequent clarify whose classification resolves (for any
backend behavior) returns a success response whose extraction_metadata is
exactly the stored one. -/
theorem clarify_round_trip
    (ext : Extractors) (clf1 clf2 : String → Option String → ClassificationResult)
    (bk1 bk2 : Backends) (text : Option String) (file : Option FileIn)
    (sid cl : String) (ctxs : Ctxs) (c : String) (m : ExtractionMeta)
    (hex : extractPhase ext text file = .ok (c, m))
    (hlen : ¬(c = "" ∨ (pyStrip c).length < 5))
    (h1 : (clf1 c text).needs_clarification = true)
    (h2 : (clf2 c (some cl)).needs_clarification = false) :
    ∃ b sb,
      process_input clf1 bk1 ext text file sid ctxs =
        (.needsClarification b, ctxSet ctxs sid ⟨c, m⟩) ∧
      ctxGet (ctxSet ctxs sid ⟨c, m⟩) sid = some ⟨c, m⟩ ∧
      b.extraction_metadata = some m ∧
      (clarify_intent clf2 bk2 cl sid (ctxSet ctxs sid ⟨c, m⟩)).1 = .success sb ∧
      sb.extraction_metadata = m := by
  have hsub : process_input clf1 bk1 ext text file sid ctxs =
      (.needsClarification
        { extracted_content := some (preview 500 c)
          extraction_metadata := some m
          question := (clf1 c text).clarification_question
          reasoning := some (clf1 c text).reasoning
          session_id := some sid }, ctxSet ctxs sid ⟨c, m⟩) := by
    unfold process_input
    rw [hex]
    show (if c = "" ∨ (pyStrip c).length < 5 then
        (ApiResponse.errorJson "Could not extract meaningful content from input", ctxs)
      else classifyPhase clf1 bk1 c m text sid ctxs) = _
    rw [if_neg hlen]
    unfold classifyPhase
    simp only [h1, if_true]
  have hcl : (clarify_intent clf2 bk2 cl sid (ctxSet ctxs sid ⟨c, m⟩)).1 = .success
      { extracted_content := preview 1000 c
        extraction_metadata := m
        intent_type := (clf2 c (some cl)).intent
        intent_confidence := (clf2 c (some cl)).confidence
        intent_reasoning := none
        result := execute bk2 (clf2 c (some cl)).intent c (some cl) } := by
    unfold clarify_intent
    rw [ctxGet_set_self ctxs sid ⟨c, m⟩]
    simp only [h2, Bool.false_eq_true, if_false]
  exact ⟨_, _, hsub, ctxGet_set_self ctxs sid ⟨c, m⟩, rfl, hcl, rfl⟩

set_option maxRecDepth 10000 in
/-- Witness for clarify_round_trip: a plain-text submit that needs
clarification, then a clarify that resolves to qa. -/
theorem clarify_round_trip_witness :
    extractPhase ext0 (some "hello there friend") none =
      .ok ("hello there friend", ExtractionMeta.text) ∧
    ¬(("hello there friend" : String) = "" ∨
      (pyStrip "hello there friend").length < 5) ∧
    (clfClar "hello there friend" (some "hello there friend")).needs_clarification = true ∧
    (clfRes "hello there friend" (some "summarize it")).needs_clarification = false ∧
    ∃ b sb,
      process_input clfClar bk0 ext0 (some "hello there friend") none "default" [] =
        (.needsClarification b,
         ctxSet [] "default" ⟨"hello there friend", ExtractionMeta.text⟩) ∧
      ctxGet (ctxSet [] "default" ⟨"hello there friend", ExtractionMeta.text⟩) "default" =
        some ⟨"hello there friend", ExtractionMeta.text⟩ ∧
      b.extraction_metadata = some ExtractionMeta.text ∧
      (clarify_intent clfRes bk0 "summarize it" "default"
          (ctxSet [] "default" ⟨"hello there friend", ExtractionMeta.text⟩)).1 =
        .success sb ∧
      sb.extraction_metadata = ExtractionMeta.text :=
  ⟨rfl, by decide, rfl, rfl,
   clarify_round_trip ext0 clfClar clfRes bk0 bk0 (some "hello there friend") none
     "default" "summarize it" [] "hello there friend" ExtractionMeta.text
     rfl (by decide) rfl rfl⟩

/-- C10: a second submit under the same session id that again ends in
needs_clarification overwrites the stored SessionContext (exactly one entry
per id remains), and a subsequent resolving clarify classifies and
dispatches against the second submit's extracted content and metadata. -/
theorem session_overwrite
    (ext1 ext2 : Extractors) (clf1 clf2 : String → Option String → ClassificationResult)
    (bk1 bk2 : Backends) (t1 t2 : Option String) (f1 f2 : Option FileIn)
    (sid : String) (ctxs : Ctxs) (c1 c2 : String) (m1 m2 : ExtractionMeta)
    (he1 : extractPhase ext1 t1 f1 = .ok (c1, m1))
    (hl1 : ¬(c1 = "" ∨ (pyStrip c1).length < 5))
    (hn1 : (clf1 c1 t1).needs_clarification = true)
    (he2 : extractPhase ext2 t2 f2 = .ok (c2, m2))
    (hl2 : ¬(c2 = "" ∨ (pyStrip c2).length < 5))
    (hn2 : (clf2 c2 t2).needs_clarification = true) :
    ctxGet (process_input clf2 bk2 ext2 t2 f2 sid
        (process_input clf1 bk1 ext1 t1 f1 sid ctxs).2).2 sid = some ⟨c2, m2⟩ ∧
    (List.filter (fun p => p.1 == sid)
        (process_input clf2 bk2 ext2 t2 f2 sid
          (process_input clf1 bk1 ext1 t1 f1 sid ctxs).2).2).length = 1 ∧
    (∀ cl (clf3 : String → Option String → ClassificationResult) (bk3 : Backends),
      (clf3 c2 (some cl)).needs_clarification = false →
      (clarify_intent clf3 bk3 cl sid
          (process_input clf2 bk2 ext2 t2 f2 sid
            (process_input clf1 bk1 ext1 t1 f1 sid ctxs).2).2).1 = .success
        { extracted_content := preview 1000 c2
          extraction_metadata := m2
          intent_type := (clf3 c2 (some cl)).intent
          intent_confidence := (clf3 c2 (some cl)).confidence
          intent_reasoning := none
          result := execute bk3 (clf3 c2 (some cl)).intent c2 (some cl) }) := by
  have step : ∀ (ext : Extractors) (clf : String → Option String → ClassificationResult)
      (bk : Backends) (t : Option String) (f : Option FileIn) (s : Ctxs)
      (c : String) (m : ExtractionMeta),
      extractPhase ext t f = .ok (c, m) → ¬(c = "" ∨ (pyStrip c).length < 5) →
      (clf c t).needs_clarification = true →
      (process_input clf bk ext t f sid s).2 = ctxSet s sid ⟨c, m⟩ := by
    intro ext clf bk t f s c m he hl hn
    unfold process_input
    rw [he]
    show (if c = "" ∨ (pyStrip c).length < 5 then
        (ApiResponse.errorJson "Could not extract meaningful content from input", s)
      else classifyPhase clf bk c m t sid s).2 = _
    rw [if_neg hl]
    unfold classifyPhase
    simp only [hn, if_true]
  have hs2 : (process_input clf2 bk2 ext2 t2 f2 sid
      (process_input clf1 bk1 ext1 t1 f1 sid ctxs).2).2 =
      ctxSet (ctxSet ctxs sid ⟨c1, m1⟩) sid ⟨c2, m2⟩ := by
    rw [step ext1 clf1 bk1 t1 f1 ctxs c1 m1 he1 hl1 hn1]
    exact step ext2 clf2 bk2 t2 f2 _ c2 m2 he2 hl2 hn2
  refine ⟨?_, ?_, ?_⟩
  · rw [hs2]
    exact ctxGet_set_self _ sid ⟨c2, m2⟩
  · rw [hs2]
    exact filter_ctxSet_one _ sid ⟨c2, m2⟩
  · intro cl clf3 bk3 hres
    rw [hs2]
    unfold clarify_intent
    rw [ctxGet_set_self _ sid ⟨c2, m2⟩]
    simp only [hres, Bool.false_eq_true, if_false]

set_option maxRecDepth 10000 in
/-- Witness for session_overwrite: two text submits under session "default",
both needing clarification. -/
theorem session_overwrite_witness :
    extractPhase ext0 (some "first content here") none =
      .ok ("first content here", ExtractionMeta.text) ∧
    ¬(("first content here" : String) = "" ∨ (pyStrip "first content here").length < 5) ∧
    (clfClar "first content here" (some "first content here")).needs_clarification = true ∧
    extractPhase ext0 (some "second content here") none =
      .ok ("second content here", ExtractionMeta.text) ∧
    ¬(("second content here" : String) = "" ∨ (pyStrip "second content here").length < 5) ∧
    (clfClar "second content here" (some "second content here")).needs_clarification = true ∧
    (ctxGet (process_input clfClar bk0 ext0 (some "second content here") none "default"
        (process_input clfClar bk0 ext0 (some "first content here") none "default" []).2).2
        "default" = some ⟨"second content here", ExtractionMeta.text⟩ ∧
     (List.filter (fun p => p.1 == "default")
        (process_input clfClar bk0 ext0 (some "second content here") none "default"
          (process_input clfClar bk0 ext0 (some "first content here") none "default" []).2).2).length
       = 1 ∧
     (∀ cl (clf3 : String → Option String → ClassificationResult) (bk3 : Backends),
       (clf3 "second content here" (some cl)).needs_clarification = false →
       (clarify_intent clf3 bk3 cl "default"
           (process_input clfClar bk0 ext0 (some "second content here") none "default"
             (process_input clfClar bk0 ext0 (some "first content here") none "default" []).2).2).1
         = .success
           { extracted_content := preview 1000 "second content here"
             extraction_metadata := ExtractionMeta.text
             intent_type := (clf3 "second content here" (some cl)).intent
             intent_confidence := (clf3 "second content here" (some cl)).confidence
             intent_reasoning := none
             result := execute bk3 (clf3 "second content here" (some cl)).intent
               "second content here" (some cl) })) :=
  ⟨rfl, by decide, rfl, rfl, by decide, rfl,
   session_overwrite ext0 ext0 clfClar clfClar bk0 bk0
     (some "first content here") (some "second content here") none none "default" []
     "first content here" "second content here" ExtractionMeta.text ExtractionMeta.text
     rfl (by decide) rfl rfl (by decide) rfl⟩

/-- classifyPhase only produces needs_clarification or success responses,
never the status="error" JSONResponse. -/
theorem classifyPhase_ne_errorJson
    (clf : String → Option String → ClassificationResult) (bk : Backends)
    (c : String) (m : ExtractionMeta) (text : Option String) (sid : String)
    (ctxs : Ctxs) (msg : String) (s2 : Ctxs) :
    ¬(classifyPhase clf bk c m text sid ctxs = (.errorJson msg, s2)) := by
  unfold classifyPhase
  by_cases hn : (clf c text).needs_clarification = true
  · simp [hn]
  · simp only [Bool.not_eq_true] at hn
    simp [hn]

/-- Reduction of process_input once the extraction outcome is known (ok). -/
theorem process_input_ok_red
    (clf : String → Option String → ClassificationResult) (bk : Backends)
    (ext : Extractors) (text : Option String) (file : Option FileIn)
    (sid : String) (ctxs : Ctxs) (c : String) (m : ExtractionMeta)
    (hex : extractPhase ext text file = .ok (c, m)) :
    process_input clf bk ext text file sid ctxs =
      if c = "" ∨ (pyStrip c).length < 5 then
        (.errorJson "Could not extract meaningful content from input", ctxs)
      else classifyPhase clf bk c m text sid ctxs := by
  unfold process_input
  rw [hex]

/-- Reduction of process_input once the extraction outcome is known (error). -/
theorem process_input_err_red
    (clf : String → Option String → ClassificationResult) (bk : Backends)
    (ext : Extractors) (text : Option String) (file : Option FileIn)
    (sid : String) (ctxs : Ctxs) (code : Nat) (detail : String)
    (hex : extractPhase ext text file = .error (code, detail)) :
    process_input clf bk ext text file sid ctxs = (.httpError code detail, ctxs) := by
  unfold process_input
  rw [hex]

/-- The empty string strips to fewer than 5 characters. -/
theorem pyStrip_empty_lt : (pyStrip "").length < 5 := by decide

/-- C7: under a successful extraction, a trimmed content length below 5
terminates with the insufficient-content error outcome before classification
(the response does not depend on the classifier or backends), a trimmed
length of at least 5 (in particular exactly 5) proceeds to classification;
and the insufficient-content check is the only way the submit endpoint
produces the status="error" outcome in the embedded semantics. -/
theorem min_content_gate
    (clf : String → Option String → ClassificationResult) (bk : Backends)
    (ext : Extractors) (text : Option String) (file : Option FileIn)
    (sid : String) (ctxs : Ctxs) :
    (∀ c m, extractPhase ext text file = .ok (c, m) →
      (((pyStrip c).length < 5 →
         process_input clf bk ext text file sid ctxs =
           (.errorJson "Could not extract meaningful content from input", ctxs)) ∧
       (5 ≤ (pyStrip c).length →
         process_input clf bk ext text file sid ctxs =
           classifyPhase clf bk c m text sid ctxs))) ∧
    (∀ msg s2, process_input clf bk ext text file sid ctxs = (.errorJson msg, s2) →
      msg = "Could not extract meaningful content from input" ∧ s2 = ctxs ∧
      ∃ c m, extractPhase ext text file = .ok (c, m) ∧ (pyStrip c).length < 5) := by
  constructor
  · intro c m hex
    constructor
    · intro hlt
      rw [process_input_ok_red clf bk ext text file sid ctxs c m hex,
        if_pos (Or.inr hlt)]
    · intro hge
      have hcond : ¬(c = "" ∨ (pyStrip c).length < 5) := by
        rintro (hc | hlt)
        · subst hc
          exact absurd hge (by decide)
        · omega
      rw [process_input_ok_red clf bk ext text file sid ctxs c m hex, if_neg hcond]
  · intro msg s2 h
    cases hex : extractPhase ext text file with
    | error p =>
      rcases p with ⟨code, detail⟩
      rw [process_input_err_red clf bk ext text file sid ctxs code detail hex] at h
      simp at h
    | ok p =>
      rcases p with ⟨c, m⟩
      rw [process_input_ok_red clf bk ext text file sid ctxs c m hex] at h
      by_cases hcond : c = "" ∨ (pyStrip c).length < 5
      · rw [if_pos hcond] at h
        have hmsg := congrArg Prod.fst h
        have hst := congrArg Prod.snd h
        simp at hmsg hst
        refine ⟨hmsg.symm, hst.symm, c, m, rfl, ?_⟩
        rcases hcond with hc | hlt
        · subst hc
          exact pyStrip_empty_lt
        · exact hlt
      · rw [if_neg hcond] at h
        exact absurd h (classifyPhase_ne_errorJson clf bk c m text sid ctxs msg s2)

set_option maxRecDepth 10000 in
/-- Witness for min_content_gate: trimmed length 4 errors out; trimmed length
exactly 5 reaches classification. -/
theorem min_content_gate_witness :
    extractPhase ext0 (some "hi y") none = .ok ("hi y", ExtractionMeta.text) ∧
    (pyStrip "hi y").length < 5 ∧
    process_input clfClar bk0 ext0 (some "hi y") none "default" [] =
      (.errorJson "Could not extract meaningful content from input", []) ∧
    extractPhase ext0 (some "hello") none = .ok ("hello", ExtractionMeta.text) ∧
    5 ≤ (pyStrip "hello").length ∧
    process_input clfClar bk0 ext0 (some "hello") none "default" [] =
      classifyPhase clfClar bk0 "hello" ExtractionMeta.text (some "hello") "default" [] :=
  ⟨rfl, by decide,
   ((min_content_gate clfClar bk0 ext0 (some "hi y") none "default" []).1
     "hi y" ExtractionMeta.text rfl).1 (by decide),
   rfl, by decide,
   ((min_content_gate clfClar bk0 ext0 (some "hello") none "default" []).1
     "hello" ExtractionMeta.text rfl).2 (by decide)⟩

/-- ciEq is reflexive. -/
theorem ciEq_refl (a : Char) : ciEq a a = true := by simp [ciEq]

/-- matchLitCI consumes an exact copy of its literal. -/
theorem matchLitCI_self (lit r : List Char) : matchLitCI lit (lit ++ r) = some (lit, r) := by
  induction lit with
  | nil => rfl
  | cons l ls ih => simp [matchLitCI, ciEq_refl, ih]

/-- Specification of a successful matchLitCI: it splits the input and the
consumed part matches the literal case-insensitively. -/
theorem matchLitCI_spec : ∀ (lit s o r : List Char),
    matchLitCI lit s = some (o, r) → s = o ++ r ∧ ciMatch lit o = true
  | [], s, o, r, h => by
    simp only [matchLitCI, Option.some.injEq, Prod.mk.injEq] at h
    rcases h with ⟨ho, hr⟩
    subst ho
    subst hr
    exact ⟨rfl, rfl⟩
  | _ :: _, [], o, r, h => by simp [matchLitCI] at h
  | l :: ls, c :: cs, o, r, h => by
    simp only [matchLitCI] at h
    by_cases hc : ciEq l c = true
    · rw [if_pos hc] at h
      rcases Option.map_eq_some'.mp h with ⟨⟨o', r'⟩, hm, heq⟩
      obtain ⟨h1, h2⟩ := matchLitCI_spec ls cs o' r' hm
      cases heq
      refine ⟨by simp [h1], ?_⟩
      simp only [ciMatch, Bool.and_eq_true]
      exact ⟨hc, h2⟩
    · rw [if_neg hc] at h
      exact absurd h (by simp)

/-- matchLitCI fails when the case-insensitive prefix test fails. -/
theorem matchLitCI_none_of (lit s : List Char) (h : ciStarts lit s = false) :
    matchLitCI lit s = none := by
  induction lit generalizing s with
  | nil => simp [ciStarts] at h
  | cons l ls ih =>
    cases s with
    | nil => rfl
    | cons c cs =>
      simp only [ciStarts, Bool.and_eq_false_iff] at h
      simp only [matchLitCI]
      by_cases hc : ciEq l c = true
      · rw [if_pos hc]
        have hfs : ciStarts ls cs = false := by
          rcases h with h1 | h2
          · rw [hc] at h1
            exact absurd h1 (by simp)
          · exact h2
        rw [ih cs hfs]
        rfl
      · rw [if_neg hc]

/-- ciStarts is insensitive to a tail beyond the literal's length. -/
theorem ciStarts_append_of_le (lit u t : List Char) (h : lit.length ≤ u.length) :
    ciStarts lit (u ++ t) = ciStarts lit u := by
  induction lit generalizing u with
  | nil => simp [ciStarts]
  | cons l ls ih =>
    cases u with
    | nil => simp at h
    | cons c cs =>
      simp only [List.cons_append, ciStarts]
      congr 1
      exact ih cs (by simpa using h)

/-- A successful prefix test of a long literal restricted to the first part. -/
theorem ciStarts_take (lit u t : List Char) (h : ciStarts lit (u ++ t) = true) :
    ciStarts (lit.take u.length) u = true := by
  induction u generalizing lit with
  | nil => simp [ciStarts]
  | cons c cs ih =>
    cases lit with
    | nil => simp [ciStarts]
    | cons l ls =>
      simp only [List.cons_append, ciStarts, Bool.and_eq_true] at h
      simp only [List.length_cons, List.take_succ_cons, ciStarts, Bool.and_eq_true]
      exact ⟨h.1, ih ls h.2⟩

/-- An elementwise match gives a prefix test on any extension. -/
theorem ciMatch_starts (lit o t : List Char) (h : ciMatch lit o = true) :
    ciStarts lit (o ++ t) = true := by
  induction lit generalizing o with
  | nil =>
    cases o with
    | nil => simp [ciStarts]
    | cons => simp [ciMatch] at h
  | cons l ls ih =>
    cases o with
    | nil => simp [ciMatch] at h
    | cons c cs =>
      simp only [ciMatch, Bool.and_eq_true] at h
      simp only [List.cons_append, ciStarts, Bool.and_eq_true]
      exact ⟨h.1, ih cs h.2⟩

/-- An elementwise match forces equal lengths. -/
theorem ciMatch_length (lit o : List Char) (h : ciMatch lit o = true) :
    o.length = lit.length := by
  induction lit generalizing o with
  | nil =>
    cases o with
    | nil => rfl
    | cons => simp [ciMatch] at h
  | cons l ls ih =>
    cases o with
    | nil => simp [ciMatch] at h
    | cons c cs =>
      simp only [ciMatch, Bool.and_eq_true] at h
      simp [ih cs h.2]

/-- Whitespace characters are among the six ASCII whitespace characters. -/
theorem pyIsSpace_mem (c : Char) (h : pyIsSpace c = true) : c ∈ wsChars := by
  simp only [pyIsSpace, Bool.or_eq_true, beq_iff_eq] at h
  simp only [wsChars, List.mem_cons, List.not_mem_nil, or_false]
  tauto

/-- No character of any pattern literal is case-insensitively equal to a
whitespace character (closed check over the concrete literals). -/
theorem lit_ws_closed :
    ∀ l ∈ httpsLit ++ httpLit ++ wwwLit ++ watchLit ++ beLit ++ embedLit,
      ∀ w ∈ wsChars, ciEq l w = false := by decide

/-- Characters matched by a whitespace-free literal are not whitespace. -/
theorem ciMatch_no_ws (lit o : List Char)
    (hlit : ∀ l ∈ lit, ∀ w ∈ wsChars, ciEq l w = false)
    (h : ciMatch lit o = true) : ∀ c ∈ o, pyIsSpace c = false := by
  induction lit generalizing o with
  | nil =>
    cases o with
    | nil => intro c hc; simp at hc
    | cons => simp [ciMatch] at h
  | cons l ls ih =>
    cases o with
    | nil => intro c hc; simp at hc
    | cons c cs =>
      simp only [ciMatch, Bool.and_eq_true] at h
      intro d hd
      rcases List.mem_cons.mp hd with hdc | hdm
      · subst hdc
        by_contra hws
        simp only [Bool.not_eq_false] at hws
        have hfalse := hlit l (List.mem_cons_self _ _) d (pyIsSpace_mem d hws)
        rw [hfalse] at h
        exact absurd h.1 (by simp)
      · exact ih cs (fun x hx => hlit x (List.mem_cons_of_mem _ hx)) h.2 d hdm

/-- A core prefix occurrence at the head yields hasCoreCI. -/
theorem hasCoreCI_of_starts (s : List Char)
    (h : ciStarts watchLit s = true ∨ ciStarts beLit s = true ∨
      ciStarts embedLit s = true) :
    hasCoreCI s = true := by
  cases s with
  | nil => rcases h with h | h | h <;> simp [ciStarts, watchLit, beLit, embedLit] at h
  | cons c cs =>
    simp only [hasCoreCI, Bool.or_eq_true]
    tauto

/-- hasCoreCI is monotone under list suffixes. -/
theorem hasCoreCI_suffix (t s : List Char) (hts : t <:+ s) (h : hasCoreCI t = true) :
    hasCoreCI s = true := by
  induction s with
  | nil =>
    rw [List.suffix_nil] at hts
    subst hts
    exact h
  | cons c cs ih =>
    rcases hts with ⟨pre, hpre⟩
    cases pre with
    | nil =>
      simp only [List.nil_append] at hpre
      subst hpre
      exact h
    | cons p ps =>
      have hcs : t <:+ cs := by
        refine ⟨ps, ?_⟩
        have := hpre
        simp only [List.cons_append, List.cons.injEq] at this
        exact this.2
      have hrec := ih hcs
      simp [hasCoreCI, hrec]

/-- A core match embedded anywhere in a list yields hasCoreCI. -/
theorem hasCoreCI_of_embed (u v q2 : List Char)
    (hv : ciMatch watchLit v = true ∨ ciMatch beLit v = true ∨
      ciMatch embedLit v = true) :
    hasCoreCI (u ++ v ++ q2) = true := by
  induction u with
  | nil =>
    apply hasCoreCI_of_starts
    rcases hv with h | h | h
    · exact .inl (ciMatch_starts _ _ _ h)
    · exact .inr (.inl (ciMatch_starts _ _ _ h))
    · exact .inr (.inr (ciMatch_starts _ _ _ h))
  | cons c cs ih =>
    show hasCoreCI (c :: (cs ++ v ++ q2)) = true
    simp only [hasCoreCI, Bool.or_eq_true]
    right
    exact ih

/-- No character of `wwwLit` is case-insensitively whitespace. -/
theorem wwwLit_ws : ∀ l ∈ wwwLit, ∀ w ∈ wsChars, ciEq l w = false := by decide

/-- No character of `httpsLit` is case-insensitively whitespace. -/
theorem httpsLit_ws : ∀ l ∈ httpsLit, ∀ w ∈ wsChars, ciEq l w = false := by decide

/-- No character of `httpLit` is case-insensitively whitespace. -/
theorem httpLit_ws : ∀ l ∈ httpLit, ∀ w ∈ wsChars, ciEq l w = false := by decide

/-- No character of `watchLit` is case-insensitively whitespace. -/
theorem watchLit_ws : ∀ l ∈ watchLit, ∀ w ∈ wsChars, ciEq l w = false := by decide

/-- No character of `beLit` is case-insensitively whitespace. -/
theorem beLit_ws : ∀ l ∈ beLit, ∀ w ∈ wsChars, ciEq l w = false := by decide

/-- No character of `embedLit` is case-insensitively whitespace. -/
theorem embedLit_ws : ∀ l ∈ embedLit, ∀ w ∈ wsChars, ciEq l w = false := by decide

/-- Decomposition of a successful matchCore: the input splits as the matched
core (one of the three literals, case-insensitively) and the rest. -/
theorem matchCore_decomp (s v rest : List Char) (h : matchCore s = some (v, rest)) :
    s = v ++ rest ∧ (ciMatch watchLit v = true ∨ ciMatch beLit v = true ∨
      ciMatch embedLit v = true) := by
  unfold matchCore at h
  rcases (Option.orElse_eq_some _ _ _).mp h with h1 | ⟨_, h2⟩
  · obtain ⟨hs, hm⟩ := matchLitCI_spec _ _ _ _ h1
    exact ⟨hs, .inl hm⟩
  · rcases (Option.orElse_eq_some _ _ _).mp h2 with h3 | ⟨_, h4⟩
    · obtain ⟨hs, hm⟩ := matchLitCI_spec _ _ _ _ h3
      exact ⟨hs, .inr (.inl hm)⟩
    · obtain ⟨hs, hm⟩ := matchLitCI_spec _ _ _ _ h4
      exact ⟨hs, .inr (.inr hm)⟩

/-- Decomposition of a successful matchWWW. -/
theorem matchWWW_decomp (s p0 rest : List Char) (h : matchWWW s = some (p0, rest)) :
    ∃ u v, s = u ++ (v ++ rest) ∧ p0 = u ++ v ∧
      (∀ c ∈ u, pyIsSpace c = false) ∧
      (ciMatch watchLit v = true ∨ ciMatch beLit v = true ∨
        ciMatch embedLit v = true) := by
  unfold matchWWW at h
  rcases (Option.orElse_eq_some _ _ _).mp h with h1 | ⟨_, h2⟩
  · rcases Option.bind_eq_some.mp h1 with ⟨⟨o1, r1⟩, hm1, hrest⟩
    rcases Option.map_eq_some'.mp hrest with ⟨⟨v, r2⟩, hc, heq⟩
    obtain ⟨hs1, hw1⟩ := matchLitCI_spec _ _ _ _ hm1
    obtain ⟨hs2, hv⟩ := matchCore_decomp _ _ _ hc
    cases heq
    refine ⟨o1, v, ?_, rfl, ?_, hv⟩
    · dsimp only at hs2 ⊢
      rw [hs1, hs2]
    · exact ciMatch_no_ws wwwLit o1 wwwLit_ws hw1
  · obtain ⟨hs, hv⟩ := matchCore_decomp _ _ _ h2
    refine ⟨[], p0, by simpa using hs, by simp, by simp, hv⟩

/-- Decomposition of a successful matchScheme: a whitespace-free prefix
(scheme and/or www, possibly empty) followed by a core literal match. -/
theorem matchScheme_decomp (s p0 rest : List Char) (h : matchScheme s = some (p0, rest)) :
    ∃ u v, s = u ++ (v ++ rest) ∧ p0 = u ++ v ∧
      (∀ c ∈ u, pyIsSpace c = false) ∧
      (ciMatch watchLit v = true ∨ ciMatch beLit v = true ∨
        ciMatch embedLit v = true) := by
  unfold matchScheme at h
  rcases (Option.orElse_eq_some _ _ _).mp h with h1 | ⟨_, h2⟩
  · rcases Option.bind_eq_some.mp h1 with ⟨⟨o1, r1⟩, hm1, hrest⟩
    rcases Option.map_eq_some'.mp hrest with ⟨⟨q1, r2⟩, hw, heq⟩
    obtain ⟨hs1, hsch⟩ := matchLitCI_spec _ _ _ _ hm1
    obtain ⟨u, v, hs2, hq1, hu, hv⟩ := matchWWW_decomp _ _ _ hw
    cases heq
    refine ⟨o1 ++ u, v, ?_, by dsimp only; simp [hq1, List.append_assoc], ?_, hv⟩
    · dsimp only at hs2 ⊢
      rw [hs1, hs2, List.append_assoc]
    · intro c hc
      rcases List.mem_append.mp hc with hc1 | hc2
      · exact ciMatch_no_ws httpsLit o1 httpsLit_ws hsch c hc1
      · exact hu c hc2
  · rcases (Option.orElse_eq_some _ _ _).mp h2 with h3 | ⟨_, h4⟩
    · rcases Option.bind_eq_some.mp h3 with ⟨⟨o1, r1⟩, hm1, hrest⟩
      rcases Option.map_eq_some'.mp hrest with ⟨⟨q1, r2⟩, hw, heq⟩
      obtain ⟨hs1, hsch⟩ := matchLitCI_spec _ _ _ _ hm1
      obtain ⟨u, v, hs2, hq1, hu, hv⟩ := matchWWW_decomp _ _ _ hw
      cases heq
      refine ⟨o1 ++ u, v, ?_, by dsimp only; simp [hq1, List.append_assoc], ?_, hv⟩
      · dsimp only at hs2 ⊢
        rw [hs1, hs2, List.append_assoc]
      · intro c hc
        rcases List.mem_append.mp hc with hc1 | hc2
        · exact ciMatch_no_ws httpLit o1 httpLit_ws hsch c hc1
        · exact hu c hc2
    · exact matchWWW_decomp _ _ _ h4

/-- Decomposition of a successful matchAt. -/
theorem matchAt_decomp (pred : Char → Bool) (s g0 g4 : List Char)
    (h : matchAt pred s = some (g0, g4)) :
    ∃ u v r, s = u ++ (v ++ r) ∧
      (∀ c ∈ u, pyIsSpace c = false) ∧
      (ciMatch watchLit v = true ∨ ciMatch beLit v = true ∨
        ciMatch embedLit v = true) := by
  unfold matchAt at h
  rcases Option.bind_eq_some.mp h with ⟨⟨p0, rest⟩, hs, _⟩
  obtain ⟨u, v, hsplit, _, hu, hv⟩ := matchScheme_decomp _ _ _ hs
  exact ⟨u, v, rest, hsplit, hu, hv⟩

/-- A whitespace-free literal cannot case-insensitively match across a
whitespace character sitting within its span. -/
theorem ciStarts_ws_block : ∀ (lit t : List Char) (w : Char) (rest : List Char),
    ciStarts lit (t ++ w :: rest) = true → t.length < lit.length →
    pyIsSpace w = true → (∀ l ∈ lit, ∀ x ∈ wsChars, ciEq l x = false) → False
  | [], t, w, rest, _, hlen, _, _ => by simp at hlen
  | l :: ls, [], w, rest, h, _, hw, hlit => by
    simp only [List.nil_append, ciStarts, Bool.and_eq_true] at h
    have := hlit l (List.mem_cons_self _ _) w (pyIsSpace_mem w hw)
    rw [this] at h
    exact absurd h.1 (by simp)
  | l :: ls, c :: ts, w, rest, h, hlen, hw, hlit => by
    simp only [List.cons_append, ciStarts, Bool.and_eq_true] at h
    exact ciStarts_ws_block ls ts w rest h.2 (by simpa using hlen)
      hw (fun x hx => hlit x (List.mem_cons_of_mem _ hx))

/-- Appending one whitespace character cannot create a core occurrence. -/
theorem hasCoreCI_concat_ws (q : List Char) (w : Char) (hw : pyIsSpace w = true)
    (h : hasCoreCI (q ++ [w]) = true) : hasCoreCI q = true := by
  induction q with
  | nil =>
    exfalso
    simp only [List.nil_append, hasCoreCI, Bool.or_eq_true] at h
    rcases h with ((h | h) | h) | h
    · exact ciStarts_ws_block watchLit [] w [] h (by decide) hw watchLit_ws
    · exact ciStarts_ws_block beLit [] w [] h (by decide) hw beLit_ws
    · exact ciStarts_ws_block embedLit [] w [] h (by decide) hw embedLit_ws
    · simp [hasCoreCI] at h
  | cons c qs ih =>
    have hstep : hasCoreCI ((c :: qs) ++ [w]) =
        (ciStarts watchLit ((c :: qs) ++ [w]) || ciStarts beLit ((c :: qs) ++ [w]) ||
         ciStarts embedLit ((c :: qs) ++ [w]) || hasCoreCI (qs ++ [w])) := rfl
    rw [hstep] at h
    simp only [Bool.or_eq_true] at h
    have hcase : ∀ lit : List Char, (∀ l ∈ lit, ∀ x ∈ wsChars, ciEq l x = false) →
        ciStarts lit ((c :: qs) ++ [w]) = true → ciStarts lit (c :: qs) = true := by
      intro lit hlit hst
      by_cases hlen : lit.length ≤ (c :: qs).length
      · rw [ciStarts_append_of_le lit (c :: qs) [w] hlen] at hst
        exact hst
      · exfalso
        push_neg at hlen
        exact ciStarts_ws_block lit (c :: qs) w [] hst hlen hw hlit
    rcases h with ((h | h) | h) | h
    · exact hasCoreCI_of_starts _ (.inl (hcase watchLit watchLit_ws h))
    · exact hasCoreCI_of_starts _ (.inr (.inl (hcase beLit beLit_ws h)))
    · exact hasCoreCI_of_starts _ (.inr (.inr (hcase embedLit embedLit_ws h)))
    · have := ih h
      simp only [hasCoreCI, Bool.or_eq_true]
      right
      exact this

/-- The pattern cannot match starting inside a region that ends with a
whitespace delimiter and contains no core occurrence. -/
theorem matchAt_none_of_clean (pred : Char → Bool) (q : List Char) (w : Char)
    (b : List Char) (hw : pyIsSpace w = true)
    (hq : hasCoreCI (q ++ [w]) = false) :
    matchAt pred ((q ++ [w]) ++ b) = none := by
  by_contra hne
  rcases Option.ne_none_iff_exists'.mp hne with ⟨⟨g0, g4⟩, hm⟩
  obtain ⟨u, v, r, hsplit, hu, hv⟩ := matchAt_decomp pred _ _ _ hm
  have hvnws : ∀ c ∈ v, pyIsSpace c = false := by
    rcases hv with h | h | h
    · exact ciMatch_no_ws watchLit v watchLit_ws h
    · exact ciMatch_no_ws beLit v beLit_ws h
    · exact ciMatch_no_ws embedLit v embedLit_ws h
  have hsplit2 : q ++ (w :: b) = (u ++ v) ++ r := by
    rw [List.append_assoc u v r, ← hsplit]
    simp [List.append_assoc]
  have hp1 : (u ++ v) <+: (q ++ (w :: b)) := ⟨r, hsplit2.symm⟩
  have hp2 : q <+: (q ++ (w :: b)) := ⟨w :: b, rfl⟩
  by_cases hle : (u ++ v).length ≤ q.length
  · have hpv : (u ++ v) <+: q := List.prefix_of_prefix_length_le hp1 hp2 hle
    rcases hpv with ⟨q2, hq2⟩
    have hcore : hasCoreCI (q ++ [w]) = true := by
      rw [← hq2]
      have := hasCoreCI_of_embed u v (q2 ++ [w]) hv
      simpa [List.append_assoc] using this
    rw [hcore] at hq
    exact absurd hq (by simp)
  · push_neg at hle
    have hqv : q <+: (u ++ v) := List.prefix_of_prefix_length_le hp2 hp1 (le_of_lt hle)
    rcases hqv with ⟨t, ht⟩
    have htne : t ≠ [] := by
      intro h0
      rw [h0, List.append_nil] at ht
      rw [ht] at hle
      exact absurd rfl (ne_of_lt hle)
    have hkey : t ++ r = w :: b := by
      have h1 : q ++ (t ++ r) = q ++ (w :: b) := by
        rw [← List.append_assoc, ht, ← hsplit2]
      exact List.append_cancel_left h1
    cases t with
    | nil => exact absurd rfl htne
    | cons th ts =>
      have hthw : th = w := by
        have := hkey
        simp only [List.cons_append, List.cons.injEq] at this
        exact this.1
      have hmem : th ∈ u ++ v := by
        rw [← ht]
        exact List.mem_append_right q (List.mem_cons_self th ts)
      rcases List.mem_append.mp hmem with hmu | hmv
      · have hfalse := hu th hmu
        rw [hthw, hw] at hfalse
        exact absurd hfalse (by simp)
      · have hfalse := hvnws th hmv
        rw [hthw, hw] at hfalse
        exact absurd hfalse (by simp)

/-- re.search skips a region in which no start position matches. -/
theorem searchYT_append_none (pred : Char → Bool) (a b : List Char)
    (h : ∀ p, p ≠ [] → p <:+ a → matchAt pred (p ++ b) = none) :
    searchYT pred (a ++ b) = searchYT pred b := by
  induction a with
  | nil => rfl
  | cons c a2 ih =>
    show searchYT pred (c :: (a2 ++ b)) = _
    have hstep : searchYT pred (c :: (a2 ++ b)) =
        (matchAt pred (c :: (a2 ++ b)) <|> searchYT pred (a2 ++ b)) := rfl
    rw [hstep]
    have hnone : matchAt pred (c :: (a2 ++ b)) = none := by
      have := h (c :: a2) (by simp) (List.suffix_refl _)
      simpa using this
    rw [hnone, Option.none_orElse]
    exact ih (fun p hne hsuf => h p hne (hsuf.trans ⟨[c], rfl⟩))

/-- A match at the head position is what re.search returns. -/
theorem searchYT_eq_of_matchAt (pred : Char → Bool) (s : List Char)
    (m : List Char × List Char) (hne : s ≠ []) (h : matchAt pred s = some m) :
    searchYT pred s = some m := by
  cases s with
  | nil => exact absurd rfl hne
  | cons c cs =>
    have hstep : searchYT pred (c :: cs) =
        (matchAt pred (c :: cs) <|> searchYT pred cs) := rfl
    rw [hstep, h, Option.some_orElse]

/-- If re.search finds a match in a suffix, it finds one in the whole text
(possibly an earlier one). -/
theorem searchYT_isSome_append (pred : Char → Bool) (a b : List Char)
    (h : (searchYT pred b).isSome = true) :
    (searchYT pred (a ++ b)).isSome = true := by
  induction a with
  | nil => exact h
  | cons c a2 ih =>
    show (searchYT pred (c :: (a2 ++ b))).isSome = true
    have hstep : searchYT pred (c :: (a2 ++ b)) =
        (matchAt pred (c :: (a2 ++ b)) <|> searchYT pred (a2 ++ b)) := rfl
    rw [hstep]
    cases hm : matchAt pred (c :: (a2 ++ b)) with
    | some m => rfl
    | none =>
      rw [Option.none_orElse]
      exact ih

/-- takeWhile/dropWhile on a run followed by a stopping character. -/
theorem takeDrop_run (pred : Char → Bool) (idl : List Char) (w : Char)
    (post : List Char) (hall : ∀ c ∈ idl, pred c = true) (hw : pred w = false) :
    (idl ++ w :: post).takeWhile pred = idl ∧
    (idl ++ w :: post).dropWhile pred = w :: post := by
  induction idl with
  | nil => simp [List.takeWhile_cons, List.dropWhile_cons, hw]
  | cons c cs ih =>
    have hc := hall c (List.mem_cons_self _ _)
    have ih2 := ih (fun d hd => hall d (List.mem_cons_of_mem _ hd))
    simp [List.takeWhile_cons, List.dropWhile_cons, hc, ih2.1, ih2.2]

/-- The pattern matches at the URL itself: group 0 is the whole
`https://youtu.be/<id>` slice and group 4 is the id. -/
theorem matchAt_url (pred : Char → Bool) (idl post : List Char) (w : Char)
    (hid : idl ≠ []) (hallp : ∀ c ∈ idl, pred c = true) (hw : pred w = false) :
    matchAt pred ((httpsLit ++ beLit) ++ (idl ++ (w :: post))) =
      some ((httpsLit ++ beLit) ++ idl, idl) := by
  have hW : matchWWW (beLit ++ (idl ++ (w :: post))) =
      some (beLit, idl ++ (w :: post)) := by
    unfold matchWWW
    have h1 : matchLitCI wwwLit (beLit ++ (idl ++ (w :: post))) = none := by
      apply matchLitCI_none_of
      rw [ciStarts_append_of_le wwwLit beLit _ (by decide)]
      decide
    have hC : matchCore (beLit ++ (idl ++ (w :: post))) =
        some (beLit, idl ++ (w :: post)) := by
      unfold matchCore
      have h2 : matchLitCI watchLit (beLit ++ (idl ++ (w :: post))) = none := by
        apply matchLitCI_none_of
        by_contra hx
        simp only [Bool.not_eq_false] at hx
        have := ciStarts_take watchLit beLit _ hx
        exact absurd this (by decide)
      rw [h2, Option.none_orElse, matchLitCI_self, Option.some_orElse]
    rw [h1, hC]
    rfl
  have hS : matchScheme ((httpsLit ++ beLit) ++ (idl ++ (w :: post))) =
      some (httpsLit ++ beLit, idl ++ (w :: post)) := by
    unfold matchScheme
    have harr : (httpsLit ++ beLit) ++ (idl ++ (w :: post)) =
        httpsLit ++ (beLit ++ (idl ++ (w :: post))) := by
      simp [List.append_assoc]
    rw [harr, matchLitCI_self]
    simp only [Option.some_bind]
    rw [hW]
    rfl
  unfold matchAt
  rw [hS]
  simp only [Option.some_bind]
  unfold matchTail
  obtain ⟨ht, hd⟩ := takeDrop_run pred idl w post hallp hw
  rw [ht, hd, if_neg hid]
  rfl

/-- listStarts is stable under extending the scanned list. -/
theorem listStarts_append_mono (pat u t : List Char) (h : listStarts pat u = true) :
    listStarts pat (u ++ t) = true := by
  induction pat generalizing u with
  | nil => rfl
  | cons p ps ih =>
    cases u with
    | nil => simp [listStarts] at h
    | cons c cs =>
      simp only [listStarts, Bool.and_eq_true] at h
      simp only [List.cons_append, listStarts, Bool.and_eq_true]
      exact ⟨h.1, ih cs h.2⟩

/-- A prefix occurrence is a substring occurrence. -/
theorem listHasSub_of_starts (pat s : List Char) (h : listStarts pat s = true) :
    listHasSub pat s = true := by
  cases s with
  | nil =>
    cases pat with
    | nil => rfl
    | cons => simp [listStarts] at h
  | cons c cs =>
    simp only [listHasSub, Bool.or_eq_true]
    exact .inl h

/-- A substring occurrence survives prepending. -/
theorem listHasSub_append_left (pat a s : List Char) (h : listHasSub pat s = true) :
    listHasSub pat (a ++ s) = true := by
  induction a with
  | nil => exact h
  | cons c as ih =>
    show listHasSub pat (c :: (as ++ s)) = true
    simp only [listHasSub, Bool.or_eq_true]
    exact .inr ih

set_option maxRecDepth 10000 in
/-- Counterexample to C9 as stated: in a text that contains an earlier
YouTube URL core, `https://youtu.be/XXXXXXXXXXX` is embedded mid-sentence
delimited by whitespace and is detected, yet extract_youtube_url normalizes
the leftmost match, not the embedded youtu.be link. -/
theorem youtube_url_cex :
    is_youtube_url "youtu.be/a https://youtu.be/XXXXXXXXXXX b" = true ∧
    extract_youtube_url "youtu.be/a https://youtu.be/XXXXXXXXXXX b" =
      "https://www.youtube.com/watch?v=a" ∧
    ¬(extract_youtube_url "youtu.be/a https://youtu.be/XXXXXXXXXXX b" =
      "https://www.youtube.com/watch?v=XXXXXXXXXXX") := by
  refine ⟨by decide, by decide, by decide⟩

/-- C9 (amended): for every text in which `https://youtu.be/<id>` is embedded
mid-sentence delimited by whitespace (id nonempty, free of whitespace and
ampersands), is_youtube_url detects it — unconditionally; and provided no
YouTube URL core (`youtube.com/watch?v=`, `youtu.be/`, `youtube.com/embed/`)
occurs case-insensitively in the text before the link, extract_youtube_url
returns the canonical `https://www.youtube.com/watch?v=<id>`. -/
theorem youtube_url_embedded (pre idl post : List Char) (w1 w2 : Char)
    (hw1 : pyIsSpace w1 = true) (hw2 : pyIsSpace w2 = true)
    (hid : idl ≠ [])
    (hidc : ∀ c ∈ idl, pyIsSpace c = false ∧ c ≠ '&') :
    is_youtube_url (String.mk
      (pre ++ (w1 :: (("https://youtu.be/".data ++ idl) ++ (w2 :: post))))) = true ∧
    (hasCoreCI pre = false →
      extract_youtube_url (String.mk
        (pre ++ (w1 :: (("https://youtu.be/".data ++ idl) ++ (w2 :: post))))) =
        "https://www.youtube.com/watch?v=" ++ String.mk idl) := by
  have hlit : "https://youtu.be/".data = httpsLit ++ beLit := by decide
  have hdata : (String.mk
      (pre ++ (w1 :: (("https://youtu.be/".data ++ idl) ++ (w2 :: post))))).data =
      (pre ++ [w1]) ++ ((httpsLit ++ beLit) ++ (idl ++ (w2 :: post))) := by
    show pre ++ (w1 :: (("https://youtu.be/".data ++ idl) ++ (w2 :: post))) = _
    rw [hlit]
    simp [List.append_assoc]
  have hm1 : matchAt nonSpace ((httpsLit ++ beLit) ++ (idl ++ (w2 :: post))) =
      some ((httpsLit ++ beLit) ++ idl, idl) :=
    matchAt_url nonSpace idl post w2 hid
      (fun c hc => by simp [nonSpace, (hidc c hc).1])
      (by simp [nonSpace, hw2])
  have hm2 : matchAt nonSpaceAmp ((httpsLit ++ beLit) ++ (idl ++ (w2 :: post))) =
      some ((httpsLit ++ beLit) ++ idl, idl) :=
    matchAt_url nonSpaceAmp idl post w2 hid
      (fun c hc => by simp [nonSpaceAmp, (hidc c hc).1, (hidc c hc).2])
      (by simp [nonSpaceAmp, hw2])
  constructor
  · unfold is_youtube_url
    rw [hdata]
    apply searchYT_isSome_append
    rw [searchYT_eq_of_matchAt nonSpace _ _ (by simp) hm1]
    rfl
  · intro hpre
    have hclean : ∀ (p : List Char), p ≠ [] → p <:+ (pre ++ [w1]) →
        matchAt nonSpaceAmp (p ++ ((httpsLit ++ beLit) ++ (idl ++ (w2 :: post)))) =
          none := by
      intro p hpne hpsuf
      obtain ⟨q, rfl, hqpre⟩ : ∃ q, p = q ++ [w1] ∧ q <:+ pre := by
        rcases hpsuf with ⟨d, hd⟩
        rcases List.eq_nil_or_concat p with h0 | ⟨q, x, rfl⟩
        · exact absurd h0 hpne
        · rw [List.concat_eq_append, ← List.append_assoc] at hd
          obtain ⟨h1, h2⟩ := List.append_inj' hd rfl
          have hx : x = w1 := by simpa using h2
          exact ⟨q, by rw [List.concat_eq_append, hx], ⟨d, h1⟩⟩
      apply matchAt_none_of_clean nonSpaceAmp q w1 _ hw1
      by_contra hcc
      simp only [Bool.not_eq_false] at hcc
      have hq := hasCoreCI_concat_ws q w1 hw1 hcc
      have hcontra := hasCoreCI_suffix q pre hqpre hq
      rw [hcontra] at hpre
      exact absurd hpre (by simp)
    have hsearch :
        searchYT nonSpaceAmp
          ((pre ++ [w1]) ++ ((httpsLit ++ beLit) ++ (idl ++ (w2 :: post)))) =
        searchYT nonSpaceAmp ((httpsLit ++ beLit) ++ (idl ++ (w2 :: post))) :=
      searchYT_append_none nonSpaceAmp _ _ hclean
    unfold extract_youtube_url
    rw [hdata, hsearch,
      searchYT_eq_of_matchAt nonSpaceAmp _ _ (by simp) hm2]
    have hsub : listHasSub ['y', 'o', 'u', 't', 'u', '.', 'b', 'e']
        (httpsLit ++ (beLit ++ idl)) = true := by
      apply listHasSub_append_left
      apply listHasSub_of_starts
      have hbe : listStarts ['y', 'o', 'u', 't', 'u', '.', 'b', 'e'] beLit = true := by
        decide
      exact listStarts_append_mono _ _ _ hbe
    dsimp only
    simp [hsub]

set_option maxRecDepth 10000 in
/-- Witness for youtube_url_embedded: the link embedded in
"see https://youtu.be/XXXXXXXXXXX ok". -/
theorem youtube_url_embedded_witness :
    pyIsSpace ' ' = true ∧
    "XXXXXXXXXXX".data ≠ [] ∧
    (∀ c ∈ "XXXXXXXXXXX".data, pyIsSpace c = false ∧ c ≠ '&') ∧
    (is_youtube_url (String.mk
       ("see".data ++ (' ' :: (("https://youtu.be/".data ++ "XXXXXXXXXXX".data) ++
         (' ' :: "ok".data))))) = true ∧
     (hasCoreCI "see".data = false →
      extract_youtube_url (String.mk
        ("see".data ++ (' ' :: (("https://youtu.be/".data ++ "XXXXXXXXXXX".data) ++
          (' ' :: "ok".data))))) =
        "https://www.youtube.com/watch?v=" ++ String.mk "XXXXXXXXXXX".data)) :=
  ⟨rfl, by decide, by decide,
   youtube_url_embedded "see".data "XXXXXXXXXXX".data "ok".data ' ' ' '
     rfl rfl (by decide) (by decide)⟩
